import Mathlib

/-!
Shallow embedding of `src/main.py` (a MicroPython BLE peripheral):
the advertising-payload encoder `advertising_payload` and the
connection/IRQ state machine of `BLESimplePeripheral`.

Bytes are modelled as `Nat` values; `struct.pack` width truncation is
made explicit with `% 256` (MicroPython's `struct.pack` silently
truncates out-of-range values to the field width instead of raising).
Side effects on the radio interface and the LED are modelled as an
explicit list of `Action`s produced by each operation.
-/

namespace ESP32BLE

/-- Advertising data type tag `_ADV_TYPE_FLAGS` (0x01). -/
def ADV_TYPE_FLAGS : Nat := 0x01

/-- Advertising data type tag `_ADV_TYPE_NAME` (0x09, complete local name). -/
def ADV_TYPE_NAME : Nat := 0x09

/-- Advertising data type tag `_ADV_TYPE_UUID16_COMPLETE` (0x03). -/
def ADV_TYPE_UUID16_COMPLETE : Nat := 0x03

/-- Advertising data type tag `_ADV_TYPE_UUID32_COMPLETE` (0x05). -/
def ADV_TYPE_UUID32_COMPLETE : Nat := 0x05

/-- Advertising data type tag `_ADV_TYPE_UUID128_COMPLETE` (0x07). -/
def ADV_TYPE_UUID128_COMPLETE : Nat := 0x07

/-- Advertising data type tag `_ADV_TYPE_APPEARANCE` (0x19). -/
def ADV_TYPE_APPEARANCE : Nat := 0x19

/-- One `_append(adv_type, value)` step of `advertising_payload`:
`struct.pack("BB", len(value) + 1, adv_type) + value`.  Both packed
bytes are truncated to 8 bits by `pack("B", ...)`, hence the `% 256`. -/
def appendField (adv_type : Nat) (value : List Nat) : List Nat :=
  (value.length + 1) % 256 :: adv_type % 256 :: value

/-- The flags value `(0x01 if limited_disc else 0x02) + (0x18 if br_edr else 0x04)`
from `advertising_payload`. -/
def flagsByte (limited_disc br_edr : Bool) : Nat :=
  (if limited_disc then 0x01 else 0x02) + (if br_edr then 0x18 else 0x04)

/-- The Flags field appended first by `advertising_payload`. -/
def flagsChunk (limited_disc br_edr : Bool) : List Nat :=
  appendField ADV_TYPE_FLAGS [flagsByte limited_disc br_edr % 256]

/-- The Complete-Local-Name field: emitted only when `name` is truthy
(not `None` and not empty). -/
def nameChunk : Option (List Nat) → List Nat
  | none => []
  | some n => if n = [] then [] else appendField ADV_TYPE_NAME n

/-- The per-service-UUID loop of `advertising_payload`: a UUID of byte
length 2 / 4 / 16 is emitted with the matching complete-list tag, any
other length falls through the `if/elif` chain and is skipped. -/
def uuidFields : List (List Nat) → List Nat
  | [] => []
  | b :: rest =>
    (if b.length = 2 then appendField ADV_TYPE_UUID16_COMPLETE b
     else if b.length = 4 then appendField ADV_TYPE_UUID32_COMPLETE b
     else if b.length = 16 then appendField ADV_TYPE_UUID128_COMPLETE b
     else []) ++ uuidFields rest

/-- The service-UUID portion of the payload (`if services:` guard:
`None` and the empty list both contribute nothing). -/
def servicesChunk : Option (List (List Nat)) → List Nat
  | none => []
  | some svcs => uuidFields svcs

/-- `struct.pack("<h", appearance)` for a nonnegative code: the low 16
bits, little-endian (MicroPython truncates out-of-range values). -/
def packLEH (a : Nat) : List Nat := [a % 256, a / 256 % 256]

/-- The Appearance field: emitted only when `appearance` is nonzero. -/
def appearanceChunk (appearance : Nat) : List Nat :=
  if appearance = 0 then [] else appendField ADV_TYPE_APPEARANCE (packLEH appearance)

/-- `advertising_payload(limited_disc, br_edr, name, services, appearance)`:
the four `_append` groups executed in source order, concatenated. -/
def advertising_payload (limited_disc br_edr : Bool) (name : Option (List Nat))
    (services : Option (List (List Nat))) (appearance : Nat) : List Nat :=
  flagsChunk limited_disc br_edr ++ nameChunk name ++ servicesChunk services
    ++ appearanceChunk appearance

/-- `bytes(_UART_UUID)` for `bluetooth.UUID("7dbea1af-b4ed-4d65-99c9-78b85f2f371f")`:
the 128-bit UUID as 16 little-endian bytes. -/
def UART_UUID_BYTES : List Nat :=
  [0x1f, 0x37, 0x2f, 0x5f, 0xb8, 0x78, 0xc9, 0x99,
   0x65, 0x4d, 0xed, 0xb4, 0xaf, 0xa1, 0xbe, 0x7d]

/-- Observable calls issued by the session to the radio interface, the
LED, and the registered write callback.  Write callbacks are identified
by a `Nat` label. -/
inductive Action
  | advertise (interval_us : Nat) (adv_data : List Nat)
  | notify (conn_handle attr_handle : Nat) (data : List Nat)
  | gattsRead (value_handle : Nat)
  | ledDuty (duty : Nat)
  | callbackCall (cb : Nat) (value : List Nat)
deriving DecidableEq

/-- The mutable state of a `BLESimplePeripheral`: the open-connection
set `self._connections` (a duplicate-free list models the Python set),
the single write-callback slot, the two characteristic handles and the
precomputed advertising payload. -/
structure SessionState where
  connections : List Nat
  writeCallback : Option Nat
  handleTx : Nat
  handleRx : Nat
  payload : List Nat
deriving DecidableEq

/-- The three IRQ events handled by `BLESimplePeripheral._irq`. -/
inductive Event
  | centralConnect (conn_handle : Nat)
  | centralDisconnect (conn_handle : Nat)
  | gattsWrite (conn_handle value_handle : Nat)

/-- `set.add`: inserting an element already present leaves the set
unchanged. -/
def setAdd (l : List Nat) (h : Nat) : List Nat :=
  if h ∈ l then l else l ++ [h]

/-- Outcome of one `_irq` dispatch: whether a Python exception
propagated out of the handler, the state when control left the handler,
and the calls issued before that point. -/
structure IrqResult where
  raised : Bool
  state : SessionState
  actions : List Action
deriving DecidableEq

/-- `BLESimplePeripheral._irq(event, data)`.  On disconnect the code
calls `self._connections.remove(conn_handle)`, and Python `set.remove`
raises `KeyError` when the element is absent; the raise happens before
the LED write and the re-advertise, so in that case the state is
unchanged and no calls are issued.  On a GATTS write the code always
reads the attribute, then invokes the callback only when the handle is
the writable (rx) one and the callback slot is truthy (not `None`). -/
def irq (gatts_read : Nat → List Nat) (s : SessionState) : Event → IrqResult
  | .centralConnect conn_handle =>
      ⟨false, { s with connections := setAdd s.connections conn_handle }, [.ledDuty 1000]⟩
  | .centralDisconnect conn_handle =>
      if conn_handle ∈ s.connections then
        ⟨false, { s with connections := s.connections.erase conn_handle },
          [.ledDuty 0, .advertise 500000 s.payload]⟩
      else
        ⟨true, s, []⟩
  | .gattsWrite _ value_handle =>
      let value := gatts_read value_handle
      if value_handle = s.handleRx then
        match s.writeCallback with
        | some cb => ⟨false, s, [.gattsRead value_handle, .callbackCall cb value]⟩
        | none => ⟨false, s, [.gattsRead value_handle]⟩
      else ⟨false, s, [.gattsRead value_handle]⟩

/-- `BLESimplePeripheral.send(data)`: one `gatts_notify` per open
connection, on the tx characteristic handle. -/
def send (s : SessionState) (data : List Nat) : List Action :=
  s.connections.map fun conn_handle => .notify conn_handle s.handleTx data

/-- `BLESimplePeripheral.is_connected()`: `len(self._connections) > 0`. -/
def is_connected (s : SessionState) : Bool :=
  decide (0 < s.connections.length)

/-- `BLESimplePeripheral.on_write(callback)`: overwrite the single
callback slot. -/
def on_write (s : SessionState) (callback : Option Nat) : SessionState :=
  { s with writeCallback := callback }

/-- `BLESimplePeripheral._advertise(interval_us)`: one `gap_advertise`
call with the precomputed payload. -/
def advertiseCall (s : SessionState) (interval_us : Nat) : List Action :=
  [.advertise interval_us s.payload]

/-- `BLESimplePeripheral.__init__`: empty connection set, no write
callback, payload built from the name and the UART service UUID, and
one initial `_advertise()` call (default interval 500000 µs). -/
def initSession (handle_tx handle_rx : Nat) (name : List Nat) :
    SessionState × List Action :=
  let payload := advertising_payload false false (some name) (some [UART_UUID_BYTES]) 0
  let s : SessionState := ⟨[], none, handle_tx, handle_rx, payload⟩
  (s, advertiseCall s 500000)

/-- Recognizer for `gap_advertise` calls, used to count re-advertises. -/
def isAdvertise : Action → Bool
  | .advertise _ _ => true
  | _ => false

/-- Spec-side shape of one advertising field: `[length][type][value]`
with the length byte equal to the value's length plus 1. -/
def encField : Nat × List Nat → List Nat
  | (t, v) => (v.length + 1) :: t :: v

/-- The bytes of `b"car-leo"`, the default peripheral name. -/
def CAR_LEO : List Nat := [0x63, 0x61, 0x72, 0x2d, 0x6c, 0x65, 0x6f]

/-! ## Theorems -/

/-- The per-UUID loop distributes over list concatenation. -/
theorem uuidFields_append (a b : List (List Nat)) :
    uuidFields (a ++ b) = uuidFields a ++ uuidFields b := by
  induction a with
  | nil => rfl
  | cons u rest ih => simp [uuidFields, ih]

/-- C5. The payload always starts with the Flags field `[0x02][0x01][b]`
where `b` is the bitwise OR of the discoverability bit (0x01 limited /
0x02 general) and the capability bits (0x18 classic / 0x04 BLE-only);
in particular `limited_disc = true, br_edr = false` gives byte 0x05 and
`limited_disc = false, br_edr = true` gives byte 0x1A.  (The source
adds the two summands, which coincides with bitwise OR here because the
bit patterns are disjoint.) -/
theorem flags_field_first (ld be : Bool) (nm : Option (List Nat))
    (svcs : Option (List (List Nat))) (app : Nat) :
    (∃ rest, advertising_payload ld be nm svcs app
      = [2, ADV_TYPE_FLAGS,
          (if ld then 0x01 else 0x02) ||| (if be then 0x18 else 0x04)] ++ rest)
    ∧ (∃ rest, advertising_payload true false nm svcs app = [2, 1, 0x05] ++ rest)
    ∧ (∃ rest, advertising_payload false true nm svcs app = [2, 1, 0x1A] ++ rest) := by
  refine ⟨⟨nameChunk nm ++ servicesChunk svcs ++ appearanceChunk app, ?_⟩,
          ⟨nameChunk nm ++ servicesChunk svcs ++ appearanceChunk app, ?_⟩,
          ⟨nameChunk nm ++ servicesChunk svcs ++ appearanceChunk app, ?_⟩⟩ <;>
    cases ld <;> cases be <;>
      simp [advertising_payload, flagsChunk, appendField, flagsByte, ADV_TYPE_FLAGS]

/-- C2. For every nonzero 16-bit appearance code, the payload ends with
the Appearance field: length byte 3, tag 0x19, then the code in
little-endian byte order (the two bytes decode back to the code). -/
theorem appearance_field (ld be : Bool) (nm : Option (List Nat))
    (svcs : Option (List (List Nat))) (a : Nat) (h0 : a ≠ 0) (h16 : a < 65536) :
    advertising_payload ld be nm svcs a
      = advertising_payload ld be nm svcs 0
          ++ [3, ADV_TYPE_APPEARANCE, a % 256, a / 256]
    ∧ a % 256 + 256 * (a / 256) = a := by
  constructor
  · have hdiv : a / 256 % 256 = a / 256 := by omega
    simp [advertising_payload, appearanceChunk, appendField, packLEH, h0, hdiv,
      ADV_TYPE_APPEARANCE]
  · omega

/-- Witness for C2 at appearance code 961 (= 0x03C1): bytes 0xC1, 0x03. -/
theorem appearance_field_witness :
    advertising_payload false false none none 961
      = advertising_payload false false none none 0
          ++ [3, ADV_TYPE_APPEARANCE, 193, 3]
    ∧ 193 + 256 * 3 = 961 := by
  have h := appearance_field false false none none 961 (by decide) (by decide)
  simpa using h

/-- C9. For every truthy (non-empty) name the payload contains the
Complete-Local-Name field — length byte, tag 0x09, then the name bytes
verbatim; for `b"car-leo"` the payload is the Flags field followed by
`[0x08][0x09]car-leo`. -/
theorem name_field (ld be : Bool) (svcs : Option (List (List Nat))) (app : Nat)
    (n : List Nat) (hne : n ≠ []) :
    (∃ pre post, advertising_payload ld be (some n) svcs app
      = pre ++ ((n.length + 1) % 256 :: ADV_TYPE_NAME :: n) ++ post)
    ∧ advertising_payload false false (some CAR_LEO) none 0
      = [2, 1, 6] ++ ([8, ADV_TYPE_NAME] ++ CAR_LEO) := by
  refine ⟨⟨flagsChunk ld be, servicesChunk svcs ++ appearanceChunk app, ?_⟩, by decide⟩
  simp [advertising_payload, nameChunk, appendField, hne, ADV_TYPE_NAME]

/-- Witness for C9 at `name = b"car-leo"`. -/
theorem name_field_witness :
    (∃ pre post, advertising_payload true false (some CAR_LEO) none 0
      = pre ++ ((CAR_LEO.length + 1) % 256 :: ADV_TYPE_NAME :: CAR_LEO) ++ post)
    ∧ advertising_payload false false (some CAR_LEO) none 0
      = [2, 1, 6] ++ ([8, ADV_TYPE_NAME] ++ CAR_LEO) :=
  name_field true false none 0 CAR_LEO (by decide)

/-- C4. Tag selection for each service UUID is by byte length: a 2-byte
UUID is emitted with length byte 3 and tag 0x03, a 4-byte UUID with
length byte 5 and tag 0x05, a 16-byte UUID with length byte 17 and tag
0x07, and a UUID of any other byte length contributes nothing — the
payload equals the payload with that UUID removed. -/
theorem uuid_tag_selection (ld be : Bool) (nm : Option (List Nat)) (app : Nat)
    (pre post : List (List Nat)) (u : List Nat) :
    (u.length = 2 → advertising_payload ld be nm (some (pre ++ u :: post)) app
      = flagsChunk ld be ++ nameChunk nm
          ++ (uuidFields pre ++ ([3, ADV_TYPE_UUID16_COMPLETE] ++ u) ++ uuidFields post)
          ++ appearanceChunk app)
    ∧ (u.length = 4 → advertising_payload ld be nm (some (pre ++ u :: post)) app
      = flagsChunk ld be ++ nameChunk nm
          ++ (uuidFields pre ++ ([5, ADV_TYPE_UUID32_COMPLETE] ++ u) ++ uuidFields post)
          ++ appearanceChunk app)
    ∧ (u.length = 16 → advertising_payload ld be nm (some (pre ++ u :: post)) app
      = flagsChunk ld be ++ nameChunk nm
          ++ (uuidFields pre ++ ([17, ADV_TYPE_UUID128_COMPLETE] ++ u) ++ uuidFields post)
          ++ appearanceChunk app)
    ∧ (u.length ≠ 2 → u.length ≠ 4 → u.length ≠ 16 →
        advertising_payload ld be nm (some (pre ++ u :: post)) app
          = advertising_payload ld be nm (some (pre ++ post)) app) := by
  refine ⟨fun h2 => ?_, fun h4 => ?_, fun h16 => ?_, fun n2 n4 n16 => ?_⟩ <;>
    simp [advertising_payload, servicesChunk, uuidFields_append, uuidFields,
      appendField, ADV_TYPE_UUID16_COMPLETE, ADV_TYPE_UUID32_COMPLETE,
      ADV_TYPE_UUID128_COMPLETE, *]

/-- Witness for C4: a 2-byte, a 4-byte, a 16-byte and a 3-byte UUID. -/
theorem uuid_tag_selection_witness :
    (advertising_payload false false none (some [[10, 11]]) 0
      = flagsChunk false false ++ ([3, ADV_TYPE_UUID16_COMPLETE] ++ [10, 11]))
    ∧ (advertising_payload false false none (some [[1, 2, 3, 4]]) 0
      = flagsChunk false false ++ ([5, ADV_TYPE_UUID32_COMPLETE] ++ [1, 2, 3, 4]))
    ∧ (advertising_payload false false none (some [UART_UUID_BYTES]) 0
      = flagsChunk false false ++ ([17, ADV_TYPE_UUID128_COMPLETE] ++ UART_UUID_BYTES))
    ∧ (advertising_payload false false none (some [[1, 2, 3]]) 0
      = advertising_payload false false none (some []) 0) := by
  refine ⟨?_, ?_, ?_, ?_⟩
  · have h := (uuid_tag_selection false false none 0 [] [] [10, 11]).1 (by decide)
    simpa [uuidFields] using h
  · have h := (uuid_tag_selection false false none 0 [] [] [1, 2, 3, 4]).2.1 (by decide)
    simpa [uuidFields] using h
  · have h := (uuid_tag_selection false false none 0 [] [] UART_UUID_BYTES).2.2.1 (by decide)
    simpa [uuidFields] using h
  · exact (uuid_tag_selection false false none 0 [] [] [1, 2, 3]).2.2.2
      (by decide) (by decide) (by decide)

/-- C1, counterexample. The claim says a Disconnect for an unknown
handle does not raise; but `_irq` calls `set.remove`, which raises
`KeyError` on a missing element, so on an empty connection set the
handler propagates an exception. -/
theorem unknown_disconnect_counterexample :
    (irq (fun _ => []) ⟨[], none, 0, 1, []⟩ (.centralDisconnect 5)).raised = true := rfl

/-- C1, amended. A Disconnect whose handle is not in the open-connection
set raises (`set.remove` raises `KeyError`); the raise happens before
the LED write and the re-advertise, so the open-connection set is left
unchanged and no radio call is issued. -/
theorem unknown_disconnect_raises (gr : Nat → List Nat) (s : SessionState) (h : Nat)
    (hh : h ∉ s.connections) :
    irq gr s (.centralDisconnect h) = ⟨true, s, []⟩ := by
  simp [irq, hh]

/-- Witness for C1 at handle 5 on an empty connection set. -/
theorem unknown_disconnect_raises_witness :
    irq (fun _ => []) ⟨[], some 3, 0, 1, []⟩ (.centralDisconnect 5)
      = ⟨true, ⟨[], some 3, 0, 1, []⟩, []⟩ :=
  unknown_disconnect_raises (fun _ => []) ⟨[], some 3, 0, 1, []⟩ 5 (by decide)

/-- C6. From a fresh session (no open connections), Connect with handle
`h` then Disconnect with the same `h` raises nothing, leaves
`is_connected()` false again, and the trace holds exactly two
`gap_advertise` calls: the one from construction and the one triggered
by the disconnect. -/
theorem connect_disconnect_readvertises (tx rx h : Nat) (name : List Nat)
    (gr : Nat → List Nat) :
    (irq gr (initSession tx rx name).1 (.centralConnect h)).raised = false
    ∧ (irq gr (irq gr (initSession tx rx name).1 (.centralConnect h)).state
        (.centralDisconnect h)).raised = false
    ∧ is_connected (irq gr (irq gr (initSession tx rx name).1 (.centralConnect h)).state
        (.centralDisconnect h)).state = false
    ∧ (((initSession tx rx name).2
        ++ (irq gr (initSession tx rx name).1 (.centralConnect h)).actions
        ++ (irq gr (irq gr (initSession tx rx name).1 (.centralConnect h)).state
            (.centralDisconnect h)).actions).filter isAdvertise).length = 2 := by
  simp [initSession, irq, setAdd, is_connected, advertiseCall, isAdvertise,
    List.filter]

/-- C8. The write callback is a single slot: after registering `cb1`
then `cb2`, the slot holds `cb2`; a Write event on the rx handle reads
the attribute and invokes exactly `cb2` with the read value, and no
invocation of a distinct `cb1` appears in the trace. -/
theorem second_callback_wins (s : SessionState) (cb1 cb2 conn : Nat)
    (gr : Nat → List Nat) :
    (on_write (on_write s (some cb1)) (some cb2)).writeCallback = some cb2
    ∧ (irq gr (on_write (on_write s (some cb1)) (some cb2))
        (.gattsWrite conn s.handleRx)).actions
      = [.gattsRead s.handleRx, .callbackCall cb2 (gr s.handleRx)]
    ∧ (cb1 ≠ cb2 → ∀ v, Action.callbackCall cb1 v ∉
        (irq gr (on_write (on_write s (some cb1)) (some cb2))
          (.gattsWrite conn s.handleRx)).actions) := by
  refine ⟨rfl, by simp [irq, on_write], fun hne v => ?_⟩
  simp [irq, on_write, hne]

/-- Witness for C8: callbacks 10 then 20, write value `[7]`. -/
theorem second_callback_wins_witness :
    (on_write (on_write ⟨[], none, 0, 1, []⟩ (some 10)) (some 20)).writeCallback = some 20
    ∧ (irq (fun _ => [7]) (on_write (on_write ⟨[], none, 0, 1, []⟩ (some 10)) (some 20))
        (.gattsWrite 0 1)).actions = [.gattsRead 1, .callbackCall 20 [7]]
    ∧ (Action.callbackCall 10 [7] ∉
        (irq (fun _ => [7]) (on_write (on_write ⟨[], none, 0, 1, []⟩ (some 10)) (some 20))
          (.gattsWrite 0 1)).actions) := by
  have h := second_callback_wins ⟨[], none, 0, 1, []⟩ 10 20 0 (fun _ => [7])
  exact ⟨h.1, h.2.1, h.2.2 (by decide) [7]⟩

/-- C10. `on_write(None)` empties the callback slot; every subsequent
Write event (to any attribute handle) raises nothing and invokes no
callback — the truthiness guard treats the `None` slot as
unregistered. -/
theorem unregister_callback (s : SessionState) (conn vh : Nat) (gr : Nat → List Nat) :
    (on_write s none).writeCallback = none
    ∧ (irq gr (on_write s none) (.gattsWrite conn vh)).raised = false
    ∧ ∀ cb v, Action.callbackCall cb v ∉
        (irq gr (on_write s none) (.gattsWrite conn vh)).actions := by
  refine ⟨rfl, ?_, fun cb v => ?_⟩ <;>
    by_cases hvh : vh = s.handleRx <;> simp [irq, on_write, hvh]

/-- C7. `send(data)` issues exactly one notify per open connection,
each targeting the tx characteristic handle with `data`: every handle
in the (duplicate-free) connection set is notified exactly once, every
issued call is such a notify, the number of calls equals the number of
open connections, and an empty connection set yields no calls. -/
theorem send_notifies_each (s : SessionState) (data : List Nat)
    (hnd : s.connections.Nodup) :
    (∀ h ∈ s.connections, (send s data).count (Action.notify h s.handleTx data) = 1)
    ∧ (∀ a ∈ send s data, ∃ h ∈ s.connections, a = Action.notify h s.handleTx data)
    ∧ (send s data).length = s.connections.length
    ∧ (s.connections = [] → send s data = []) := by
  have hinj : Function.Injective fun h => Action.notify h s.handleTx data := by
    intro a b hab
    simpa using hab
  refine ⟨fun h hm => ?_, fun a ha => ?_, by simp [send], fun he => by simp [send, he]⟩
  · exact List.count_eq_one_of_mem (hnd.map hinj) (List.mem_map_of_mem _ hm)
  · obtain ⟨h, hm, rfl⟩ := List.mem_map.mp ha
    exact ⟨h, hm, rfl⟩

/-- Witness for C7: connections `{1, 2}` and the empty set. -/
theorem send_notifies_each_witness :
    (send ⟨[1, 2], none, 7, 8, []⟩ [9]).count (Action.notify 1 7 [9]) = 1
    ∧ send ⟨[], none, 7, 8, []⟩ [9] = [] := by
  refine ⟨?_, ?_⟩
  · exact (send_notifies_each ⟨[1, 2], none, 7, 8, []⟩ [9] (by decide)).1 1 (by decide)
  · exact (send_notifies_each ⟨[], none, 7, 8, []⟩ [9] (by decide)).2.2.2 rfl

/-- A decomposition into spec-shaped fields is preserved by
concatenation. -/
theorem flatten_decomp_append {A B : List Nat}
    (ha : ∃ fs : List (Nat × List Nat), A = (fs.map encField).flatten)
    (hb : ∃ fs : List (Nat × List Nat), B = (fs.map encField).flatten) :
    ∃ fs : List (Nat × List Nat), A ++ B = (fs.map encField).flatten := by
  obtain ⟨f1, h1⟩ := ha
  obtain ⟨f2, h2⟩ := hb
  exact ⟨f1 ++ f2, by simp [h1, h2]⟩

/-- Every service-UUID chunk decomposes into spec-shaped fields (each
emitted value has length 2, 4 or 16, so its length byte is exact). -/
theorem uuidFields_decomp (l : List (List Nat)) :
    ∃ fs : List (Nat × List Nat), uuidFields l = (fs.map encField).flatten := by
  induction l with
  | nil => exact ⟨[], rfl⟩
  | cons b rest ih =>
    obtain ⟨fs, hfs⟩ := ih
    by_cases h2 : b.length = 2
    · exact ⟨(ADV_TYPE_UUID16_COMPLETE, b) :: fs,
        by simp [uuidFields, h2, appendField, encField, hfs, ADV_TYPE_UUID16_COMPLETE]⟩
    by_cases h4 : b.length = 4
    · exact ⟨(ADV_TYPE_UUID32_COMPLETE, b) :: fs,
        by simp [uuidFields, h2, h4, appendField, encField, hfs, ADV_TYPE_UUID32_COMPLETE]⟩
    by_cases h16 : b.length = 16
    · exact ⟨(ADV_TYPE_UUID128_COMPLETE, b) :: fs,
        by simp [uuidFields, h2, h4, h16, appendField, encField, hfs,
          ADV_TYPE_UUID128_COMPLETE]⟩
    exact ⟨fs, by simp [uuidFields, h2, h4, h16, hfs]⟩

/-- C3, amended. Whenever the name (if emitted) is at most 254 bytes —
so that its length byte `len(name) + 1` fits in the single byte
`struct.pack("B", ...)` gives it — the payload decomposes into
consecutive `[length][type][value]` fields whose length bytes equal the
value length plus 1, and the fields exactly tile the payload: the sum
of the field lengths is the payload's byte length. -/
theorem payload_decomposes (ld be : Bool) (nm : Option (List Nat))
    (svcs : Option (List (List Nat))) (app : Nat)
    (hname : ∀ n, nm = some n → n.length ≤ 254) :
    ∃ fs : List (Nat × List Nat),
      advertising_payload ld be nm svcs app = (fs.map encField).flatten
      ∧ ((fs.map encField).map List.length).sum
          = (advertising_payload ld be nm svcs app).length := by
  have hflags : ∃ fs : List (Nat × List Nat),
      flagsChunk ld be = (fs.map encField).flatten :=
    ⟨[(ADV_TYPE_FLAGS, [flagsByte ld be % 256])],
      by simp [flagsChunk, appendField, encField, ADV_TYPE_FLAGS]⟩
  have hnm : ∃ fs : List (Nat × List Nat), nameChunk nm = (fs.map encField).flatten := by
    match nm with
    | none => exact ⟨[], rfl⟩
    | some n =>
      by_cases he : n = []
      · exact ⟨[], by simp [nameChunk, he]⟩
      · have hlen : (n.length + 1) % 256 = n.length + 1 :=
          Nat.mod_eq_of_lt (by have := hname n rfl; omega)
        exact ⟨[(ADV_TYPE_NAME, n)],
          by simp [nameChunk, he, appendField, encField, hlen, ADV_TYPE_NAME]⟩
  have hsvcs : ∃ fs : List (Nat × List Nat),
      servicesChunk svcs = (fs.map encField).flatten := by
    match svcs with
    | none => exact ⟨[], rfl⟩
    | some l => exact uuidFields_decomp l
  have happ : ∃ fs : List (Nat × List Nat),
      appearanceChunk app = (fs.map encField).flatten := by
    by_cases h0 : app = 0
    · exact ⟨[], by simp [appearanceChunk, h0]⟩
    · exact ⟨[(ADV_TYPE_APPEARANCE, packLEH app)],
        by simp [appearanceChunk, h0, appendField, packLEH, encField, ADV_TYPE_APPEARANCE]⟩
  obtain ⟨fs, hfs⟩ := flatten_decomp_append
    (flatten_decomp_append (flatten_decomp_append hflags hnm) hsvcs) happ
  refine ⟨fs, hfs, ?_⟩
  rw [advertising_payload, hfs, List.length_flatten]

/-- Witness for C3 at a one-byte name, one 2-byte UUID and appearance 5. -/
theorem payload_decomposes_witness :
    ∃ fs : List (Nat × List Nat),
      advertising_payload true true (some [65]) (some [[10, 11]]) 5
        = (fs.map encField).flatten
      ∧ ((fs.map encField).map List.length).sum
          = (advertising_payload true true (some [65]) (some [[10, 11]]) 5).length := by
  refine payload_decomposes true true (some [65]) (some [[10, 11]]) 5 ?_
  intro n hn
  injection hn with h
  subst h
  decide

set_option maxRecDepth 4000 in
/-- C3, counterexample. For a 255-byte name the length byte
`struct.pack("B", 256)` wraps to 0, so the returned payload admits no
decomposition into `[length][type][value]` fields whose length byte is
the value length plus 1: the byte at the start of the name field is 0,
and no field can have length byte 0. -/
theorem payload_decomposes_counterexample :
    ¬ ∃ fs : List (Nat × List Nat),
      advertising_payload false false (some (List.replicate 255 0)) none 0
        = (fs.map encField).flatten := by
  rintro ⟨fs, hfs⟩
  have hne : List.replicate 255 (0 : Nat) ≠ [] := by simp
  have hpay : advertising_payload false false (some (List.replicate 255 0)) none 0
      = 2 :: 1 :: 6 :: 0 :: 9 :: List.replicate 255 0 := by
    simp [advertising_payload, flagsChunk, nameChunk, servicesChunk, appearanceChunk,
      appendField, flagsByte, hne, ADV_TYPE_FLAGS, ADV_TYPE_NAME]
  rw [hpay] at hfs
  rcases fs with _ | ⟨⟨t, v⟩, fs1⟩
  · exact List.noConfusion hfs
  simp only [List.map_cons, List.flatten_cons, encField, List.cons_append] at hfs
  injection hfs with h1 hfs
  injection hfs with h2 hfs
  have hv : v.length = 1 := by omega
  obtain ⟨x, rfl⟩ := List.length_eq_one.mp hv
  simp only [List.singleton_append] at hfs
  injection hfs with hx hfs
  rcases fs1 with _ | ⟨⟨t2, v2⟩, fs2⟩
  · simp only [List.map_nil, List.flatten_nil] at hfs
    exact List.noConfusion hfs
  simp only [List.map_cons, List.flatten_cons, encField, List.cons_append] at hfs
  injection hfs with h0 hrest
  omega

end ESP32BLE
